import Mathlib

/-!
Verification of the device-scoped todo store (`src/convex/todos.ts`,
schema `src/convex/schema.ts`) and the device identity provider
(`hooks/useDeviceId.ts`).

The Convex database is embedded shallowly: the `todos` table is a list of
records, `_id` is a `Nat` drawn from a fresh-id counter, `_creationTime`
(the spec's `createdAt`) is a `Nat` drawn from a monotone clock counter.
Convex mutations are transactional — a thrown `ConvexError` aborts the
transaction — so every operation returns its result (`Except Err α`)
together with the resulting store, the input store unchanged on error.

Error kinds follow the spec's taxonomy (§7), mapped from the thrown
`ConvexError` messages:
  * "Todo text cannot be empty", "Device ID is required (for
    authorization)"  ↦ `Err.validation`
  * "Todo not found (or already deleted)" ↦ `Err.notFound`
  * "Not authorized: Todo belongs to a different device" ↦ `Err.authorization`
-/

/-- A row of the `todos` table (`schema.ts`): `text`, `isCompleted`,
`deviceId`, plus the Convex-generated `_id` (here `id`) and
`_creationTime` (here `createdAt`). -/
structure Todo where
  id : Nat
  text : String
  isCompleted : Bool
  deviceId : String
  createdAt : Nat
deriving Repr, DecidableEq

/-- The database state: the `todos` table plus the id/clock counters the
backend uses to mint fresh `_id` / `_creationTime` values. `todos` is kept
in insertion order. -/
structure TodoStore where
  todos : List Todo
  nextId : Nat
  nextTime : Nat
deriving Repr, DecidableEq

/-- Error kinds of §7: `ValidationError`, `NotFoundError`, `AuthorizationError`. -/
inductive Err where
  | validation
  | notFound
  | authorization
deriving Repr, DecidableEq

/-- Well-formedness of a store reachable by the backend: ids and creation
times are below the counters (so fresh ones never collide) and ids are
pairwise distinct. -/
def TodoStore.WF (s : TodoStore) : Prop :=
  (∀ t ∈ s.todos, t.id < s.nextId ∧ t.createdAt < s.nextTime) ∧
    s.todos.Pairwise (fun a b => a.id ≠ b.id)

instance (s : TodoStore) : Decidable s.WF := by
  unfold TodoStore.WF
  infer_instance

/-- The "most recent first" order used by `getTodos`'s `.order("desc")`:
`a` comes before `b` when `a` was created no earlier than `b`. -/
def createdDesc (a b : Todo) : Prop := b.createdAt ≤ a.createdAt

instance : DecidableRel createdDesc := fun a b =>
  inferInstanceAs (Decidable (b.createdAt ≤ a.createdAt))

instance : IsTotal Todo createdDesc :=
  ⟨fun a b => by unfold createdDesc; exact Nat.le_total b.createdAt a.createdAt⟩

instance : IsTrans Todo createdDesc :=
  ⟨fun _ _ _ hab hbc => Nat.le_trans hbc hab⟩

/-- `getTodos` (`todos.ts:11-36`): returns `[]` when `deviceId` is absent
or empty (JS falsiness of `!args.deviceId`), otherwise the todos of that
device in `_creationTime`-descending order (the `by_device` index with
`.order("desc")`, rendered as a sort of the matching rows). -/
def getTodos (s : TodoStore) (deviceId : Option String) : List Todo :=
  match deviceId with
  | none => []
  | some d =>
    if d = "" then []
    else List.insertionSort createdDesc (s.todos.filter (fun t => t.deviceId == d))

/-- JS `String.prototype.trim` — strip whitespace from both ends — as a
kernel-computable function on the character list (Lean core's
`String.trim` is defined through `Substring` well-founded recursion and
does not reduce, which would block evaluating the embedding on concrete
inputs). -/
def jsTrim (s : String) : String :=
  ⟨((s.data.dropWhile Char.isWhitespace).reverse.dropWhile Char.isWhitespace).reverse⟩

/-- `addTodo` (`todos.ts:43-73`): rejects blank text, then an empty
`deviceId`; otherwise inserts one row with the trimmed text,
`isCompleted := false`, the caller's `deviceId`, and fresh id/creation
time, returning the new row's id. -/
def addTodo (s : TodoStore) (text deviceId : String) :
    Except Err Nat × TodoStore :=
  if (jsTrim text) = "" then (.error .validation, s)
  else if deviceId = "" then (.error .validation, s)
  else
    let todo : Todo :=
      { id := s.nextId, text := (jsTrim text), isCompleted := false
        deviceId := deviceId, createdAt := s.nextTime }
    (.ok s.nextId,
      { todos := s.todos ++ [todo], nextId := s.nextId + 1,
        nextTime := s.nextTime + 1 })

/-- `ctx.db.get(id)`: the row with that `_id`, if any. -/
def TodoStore.get (s : TodoStore) (id : Nat) : Option Todo :=
  s.todos.find? (fun t => t.id == id)

/-- `toggleTodo` (`todos.ts:80-118`): rejects an empty `deviceId`; `get`s
the row (`NotFoundError` if absent), checks ownership
(`AuthorizationError` on mismatch), then patches `isCompleted` to its
negation and returns the `newStatus` field of the code's
`{ success: true, newStatus }` result. -/
def toggleTodo (s : TodoStore) (id : Nat) (deviceId : String) :
    Except Err Bool × TodoStore :=
  if deviceId = "" then (.error .validation, s)
  else
    match s.get id with
    | none => (.error .notFound, s)
    | some todo =>
      if todo.deviceId ≠ deviceId then (.error .authorization, s)
      else
        (.ok (!todo.isCompleted),
          { s with todos := s.todos.map (fun t =>
              if t.id == id then { t with isCompleted := !todo.isCompleted } else t) })

/-- `deleteTodo` (`todos.ts:125-161`): rejects an empty `deviceId`;
`NotFoundError` if the row is absent ("Todo not found or already
deleted"), `AuthorizationError` on ownership mismatch, else removes the
row and returns the `deletedTodoId` field of the result. -/
def deleteTodo (s : TodoStore) (id : Nat) (deviceId : String) :
    Except Err Nat × TodoStore :=
  if deviceId = "" then (.error .validation, s)
  else
    match s.get id with
    | none => (.error .notFound, s)
    | some todo =>
      if todo.deviceId ≠ deviceId then (.error .authorization, s)
      else
        (.ok id, { s with todos := s.todos.filter (fun t => !(t.id == id)) })

/-- `updateTodo` (`todos.ts:168-212`): rejects blank text, then an empty
`deviceId`; `NotFoundError` if the row is absent, `AuthorizationError` on
ownership mismatch, else patches only `text` to the trimmed value and
returns the `updatedText` field of the result. -/
def updateTodo (s : TodoStore) (id : Nat) (text deviceId : String) :
    Except Err String × TodoStore :=
  if (jsTrim text) = "" then (.error .validation, s)
  else if deviceId = "" then (.error .validation, s)
  else
    match s.get id with
    | none => (.error .notFound, s)
    | some todo =>
      if todo.deviceId ≠ deviceId then (.error .authorization, s)
      else
        (.ok (jsTrim text),
          { s with todos := s.todos.map (fun t =>
              if t.id == id then { t with text := (jsTrim text) } else t) })

/-- `clearAllTodos` (`todos.ts:219-250`): rejects an empty `deviceId`;
collects the device's rows, deletes each, and returns the `deletedCount`
field of the result. The row-by-row loop nets out to removing exactly the
rows whose `deviceId` matches. -/
def clearAllTodos (s : TodoStore) (deviceId : String) :
    Except Err Nat × TodoStore :=
  if deviceId = "" then (.error .validation, s)
  else
    let deviceTodos := s.todos.filter (fun t => t.deviceId == deviceId)
    (.ok deviceTodos.length,
      { s with todos := s.todos.filter (fun t => !(t.deviceId == deviceId)) })

/-- Result shape of `getDeviceStats` (without the echoed `deviceId`). -/
structure DeviceStats where
  total : Nat
  completed : Nat
  pending : Nat
  completionRate : Nat
deriving Repr, DecidableEq

/-- `getDeviceStats` (`todos.ts:257-294`): the no-`deviceId` early return
is commented out in the source, so an absent `deviceId` is passed to the
index lookup as-is and matches no row (every stored `deviceId` is a
string). `completionRate` is `Math.round((completed / total) * 100)` for
`total > 0`, i.e. round-half-up of `100·completed/total`, rendered
exactly over the rationals as `(200·completed + total) / (2·total)` in
integer division; and `0` for `total = 0`. -/
def getDeviceStats (s : TodoStore) (deviceId : Option String) : DeviceStats :=
  let todos : List Todo :=
    match deviceId with
    | none => []
    | some d => s.todos.filter (fun t => t.deviceId == d)
  let total := todos.length
  let completed := (todos.filter (fun t => t.isCompleted)).length
  let pending := total - completed
  let completionRate :=
    if 0 < total then (200 * completed + total) / (2 * total) else 0
  { total := total, completed := completed, pending := pending,
    completionRate := completionRate }

/-!
Device identity provider (`hooks/useDeviceId.ts`). The effectful
environment — AsyncStorage contents, whether each external call throws,
and the values the crypto/clock/random libraries would produce — is an
explicit input. A rejected promise (an exception escaping
`generateOrRetrieveDeviceId`) is `Except.error ()`.
-/

/-- The environment of one `generateOrRetrieveDeviceId` call. `stored` is
AsyncStorage's `device_id` value (`none` = absent). `readFails` /
`writeFails` / `hashFails`: the corresponding call inside the `try` block
throws. `fallbackWriteFails`: the `AsyncStorage.setItem` inside the
`catch` block throws. `hashValue` is the hex digest
`Crypto.digestStringAsync` would return; `timestamp` is `Date.now()` and
`randSuffix` the `Math.random().toString(36).substr(2, 9)` suffix used by
the fallback id. -/
structure DeviceEnv where
  stored : Option String
  readFails : Bool
  hashFails : Bool
  writeFails : Bool
  fallbackWriteFails : Bool
  hashValue : String
  timestamp : Nat
  randSuffix : String
deriving Repr, DecidableEq

/-- The `catch` block (`useDeviceId.ts:71-79`): builds
`device_<Date.now()>_<rand36>` and persists it — but the `setItem` is not
guarded, so if it throws the whole call rejects. -/
def fallbackGen (e : DeviceEnv) : Except Unit (String × Option String) :=
  if e.fallbackWriteFails then .error ()
  else
    let fallbackId := "device_" ++ (toString e.timestamp ++ "_" ++ e.randSuffix)
    .ok (fallbackId, some fallbackId)

/-- The generation path of the `try` block (`useDeviceId.ts:35-69`): hash
the device-info JSON, take `device_` plus the first 32 digest characters,
persist it. Any throw (hashing, either `setItem`) lands in the `catch`
block. -/
def genNewId (e : DeviceEnv) : Except Unit (String × Option String) :=
  if e.hashFails then fallbackGen e
  else
    let shortDeviceId := "device_" ++ String.mk (e.hashValue.data.take 32)
    if e.writeFails then fallbackGen e
    else .ok (shortDeviceId, some shortDeviceId)

/-- `generateOrRetrieveDeviceId` (`useDeviceId.ts:24-80`): read the stored
id (a throw lands in `catch`); `if (storedDeviceId)` — truthy, i.e.
present and non-empty — return it unchanged; otherwise generate a new
one. Returns the produced id together with AsyncStorage's resulting
`device_id` value. -/
def generateOrRetrieveDeviceId (e : DeviceEnv) :
    Except Unit (String × Option String) :=
  if e.readFails then fallbackGen e
  else
    match e.stored with
    | some s => if s = "" then genNewId e else .ok (s, some s)
    | none => genNewId e

/-! Concrete fixtures used by the witnesses below. -/

/-- A todo of device `D1` (the spec's scenario "a"). -/
def todoA : Todo :=
  { id := 0, text := "a", isCompleted := false, deviceId := "D1", createdAt := 0 }

/-- A todo of device `D1` created after `todoA` (the scenario "b"). -/
def todoB : Todo :=
  { id := 1, text := "b", isCompleted := false, deviceId := "D1", createdAt := 1 }

/-- A completed todo of device `D2`. -/
def todoC : Todo :=
  { id := 2, text := "c", isCompleted := true, deviceId := "D2", createdAt := 2 }

/-- A store holding the three fixture todos. -/
def demoStore : TodoStore := { todos := [todoA, todoB, todoC], nextId := 3, nextTime := 3 }

/-- An identity environment with a stored id and no failing effects. -/
def demoEnv : DeviceEnv :=
  { stored := some "device_stored00", readFails := false, hashFails := false,
    writeFails := false, fallbackWriteFails := false,
    hashValue := "0123456789abcdef0123456789abcdef01", timestamp := 1760000000000,
    randSuffix := "k3j9x2m1q" }

/-- `demoEnv` with nothing stored yet. -/
def freshEnv : DeviceEnv := { demoEnv with stored := none }

/-- The environment that exhibits the fallback-write defect: nothing
stored, the `setItem` calls of the `try` block throw, and the `setItem`
of the `catch` block throws as well (a persistently failing storage
layer). -/
def c9Env : DeviceEnv := { freshEnv with writeFails := true, fallbackWriteFails := true }

/-- `demoStore` after the owning device toggles `todoA`. -/
def toggledStore : TodoStore :=
  { todos := [{ todoA with isCompleted := true }, todoB, todoC], nextId := 3, nextTime := 3 }

/-- `demoStore` after the owning device rewrites `todoB`'s text. -/
def updatedStore : TodoStore :=
  { todos := [todoA, { todoB with text := "b2" }, todoC], nextId := 3, nextTime := 3 }

/-- `demoStore` after device `D1` clears its todos. -/
def clearedStore : TodoStore := { todos := [todoC], nextId := 3, nextTime := 3 }

/-- `demoStore` after device `D1` adds "  buy milk  ". -/
def addedStore : TodoStore :=
  { todos := [todoA, todoB, todoC,
      { id := 3, text := "buy milk", isCompleted := false, deviceId := "D1", createdAt := 3 }],
    nextId := 4, nextTime := 4 }

/-- The row `addedStore` gained over `demoStore`. -/
def addedTodo : Todo :=
  { id := 3, text := "buy milk", isCompleted := false, deviceId := "D1", createdAt := 3 }

/-! Helper lemmas about patch-style maps and `find?`. -/

/-- A patch map that touches only rows with id `i` is the identity on a
list containing no such row. -/
theorem map_patch_of_ne (l : List Todo) (i : Nat) (f : Todo → Todo)
    (h : ∀ x ∈ l, x.id ≠ i) :
    l.map (fun x => if x.id == i then f x else x) = l := by
  induction l with
  | nil => rfl
  | cons hd tl ih =>
    have hhd : (hd.id == i) = false := by
      simpa using h hd (List.mem_cons_self hd tl)
    simp only [List.map_cons, hhd, Bool.false_eq_true, if_false]
    rw [ih fun x hx => h x (List.mem_cons_of_mem hd hx)]

/-- With pairwise-distinct ids, any member with the looked-up id is the
row `find?` returns. -/
theorem find?_unique {l : List Todo} {i : Nat} {t : Todo}
    (hp : l.Pairwise (fun a b => a.id ≠ b.id))
    (hf : l.find? (fun x => x.id == i) = some t) :
    ∀ x ∈ l, x.id = i → x = t := by
  induction l with
  | nil => simp at hf
  | cons hd tl ih =>
    rcases List.pairwise_cons.mp hp with ⟨hhd, htl⟩
    intro x hx hxi
    rcases List.mem_cons.mp hx with rfl | hxtl
    · have hb : (x.id == i) = true := by simpa using hxi
      simp only [List.find?_cons, hb] at hf
      simpa using hf
    · by_cases hcase : hd.id = i
      · exact absurd (hcase.trans hxi.symm) (hhd x hxtl)
      · have hb : (hd.id == i) = false := by simpa using hcase
        simp only [List.find?_cons, hb] at hf
        exact ih htl hf x hxtl hxi

/-- A patch map that preserves ids commutes with looking up the patched id. -/
theorem find?_map_patch (l : List Todo) (i : Nat) (f : Todo → Todo)
    (hf : ∀ t, (f t).id = t.id) :
    (l.map (fun t => if t.id == i then f t else t)).find? (fun t => t.id == i)
      = (l.find? (fun t => t.id == i)).map f := by
  have hpred : ((fun t : Todo => t.id == i) ∘ (fun t => if t.id == i then f t else t))
      = fun t => t.id == i := by
    funext x
    by_cases h : x.id = i
    · simp [Function.comp_apply, h, hf]
    · simp [Function.comp_apply, h]
  rw [List.find?_map, hpred]
  cases hfind : l.find? (fun t => t.id == i) with
  | none => simp
  | some t =>
    have ht : (t.id == i) = true :=
      @List.find?_some Todo (fun t => t.id == i) t l hfind
    have ht' : t.id = i := by simpa using ht
    simp [ht']

/-- Patching a row and then patching it back restores the list, given
pairwise-distinct ids. -/
theorem map_patch_cancel {l : List Todo} {i : Nat} {t : Todo}
    (hp : l.Pairwise (fun a b => a.id ≠ b.id))
    (hf : l.find? (fun x => x.id == i) = some t)
    (f g : Todo → Todo) (hgf : g (f t) = t) (hfid : ∀ x, (f x).id = x.id) :
    ((l.map (fun x => if x.id == i then f x else x)).map
        (fun x => if x.id == i then g x else x)) = l := by
  rw [List.map_map]
  have hmem : ∀ x ∈ l, x.id = i → x = t := find?_unique hp hf
  have hid : ∀ x ∈ l, ((fun x => if x.id == i then g x else x) ∘
      (fun x => if x.id == i then f x else x)) x = x := by
    intro x hx
    by_cases h : x.id = i
    · have hxt : x = t := hmem x hx h
      subst hxt
      simp [Function.comp_apply, h, hfid, hgf]
    · simp [Function.comp_apply, h]
  calc l.map ((fun x => if x.id == i then g x else x) ∘
        (fun x => if x.id == i then f x else x))
      = l.map id := List.map_congr_left (by simpa using hid)
    _ = l := List.map_id l

/-- `find?` over a one-element extension, when nothing in the prefix matches. -/
theorem find?_append_singleton {α : Type} (l : List α) (a : α) (p : α → Bool)
    (h : ∀ x ∈ l, p x = false) :
    (l ++ [a]).find? p = if p a then some a else none := by
  rw [List.find?_append, List.find?_eq_none.mpr (by simp_all)]
  cases hpa : p a <;> simp [List.find?_cons, hpa]

/-! Claim theorems. -/

/-- C2 — `add` contract: `addTodo` fails with `ValidationError` and
leaves the store unchanged when the trimmed text or the `deviceId` is
empty; otherwise it appends exactly one new todo with `isCompleted :=
false`, the trimmed text, the supplied `deviceId` and a fresh
id/creation time (colliding with no existing row, given a well-formed
store), and returns the created record's id, under which exactly that
record is stored. -/
theorem addTodo_contract (s : TodoStore) (text deviceId : String) (hWF : s.WF) :
    ((jsTrim text) = "" ∨ deviceId = "" →
      addTodo s text deviceId = (.error .validation, s)) ∧
    ((jsTrim text) ≠ "" → deviceId ≠ "" →
      addTodo s text deviceId =
        (.ok s.nextId,
          { todos := s.todos ++
              [{ id := s.nextId, text := (jsTrim text), isCompleted := false,
                 deviceId := deviceId, createdAt := s.nextTime }],
            nextId := s.nextId + 1, nextTime := s.nextTime + 1 }) ∧
      (∀ t ∈ s.todos, t.id ≠ s.nextId ∧ t.createdAt ≠ s.nextTime) ∧
      (addTodo s text deviceId).2.get s.nextId =
        some { id := s.nextId, text := (jsTrim text), isCompleted := false,
               deviceId := deviceId, createdAt := s.nextTime }) := by
  constructor
  · rintro (h | h)
    · simp [addTodo, h]
    · by_cases ht : (jsTrim text) = ""
      · simp [addTodo, ht]
      · simp [addTodo, ht, h]
  · intro ht hd
    have heq : addTodo s text deviceId =
        (.ok s.nextId,
          { todos := s.todos ++
              [{ id := s.nextId, text := (jsTrim text), isCompleted := false,
                 deviceId := deviceId, createdAt := s.nextTime }],
            nextId := s.nextId + 1, nextTime := s.nextTime + 1 }) := by
      simp [addTodo, ht, hd]
    refine ⟨heq, fun t htl => ?_, ?_⟩
    · have := hWF.1 t htl
      omega
    · rw [heq]
      simp only [TodoStore.get]
      rw [find?_append_singleton _ _ _ fun x hx => ?_]
      · simp
      · have := (hWF.1 x hx).1
        simp only [beq_eq_false_iff_ne, ne_eq]
        omega

/-- C3 — `list` contract: for a non-empty `deviceId`, `getTodos`
returns a permutation of exactly the rows whose `deviceId` matches,
sorted by creation time descending; a row is in the result iff it is a
matching row of the store; no matching rows gives `[]`; and an absent or
empty `deviceId` gives `[]` (never an error — `getTodos` is total). -/
theorem getTodos_contract (s : TodoStore) (d : String) (hd : d ≠ "") :
    (getTodos s (some d)).Perm (s.todos.filter (fun t => t.deviceId == d)) ∧
    (getTodos s (some d)).Sorted createdDesc ∧
    (∀ t, t ∈ getTodos s (some d) ↔ t ∈ s.todos ∧ t.deviceId = d) ∧
    ((∀ t ∈ s.todos, t.deviceId ≠ d) → getTodos s (some d) = []) ∧
    getTodos s none = [] ∧ getTodos s (some "") = [] := by
  have hdef : getTodos s (some d)
      = List.insertionSort createdDesc (s.todos.filter (fun t => t.deviceId == d)) := by
    simp [getTodos, hd]
  refine ⟨?_, ?_, ?_, ?_, rfl, by simp [getTodos]⟩
  · rw [hdef]; exact List.perm_insertionSort _ _
  · rw [hdef]; exact List.sorted_insertionSort _ _
  · intro t
    rw [hdef, List.mem_insertionSort, List.mem_filter]
    simp
  · intro h
    rw [hdef, List.filter_eq_nil_iff.mpr (by simpa using h)]
    rfl

/-- C5 — not-found errors: with a non-empty `deviceId` (and, for
`update`, non-blank text — validation precedes the existence check), a
`toggle`/`update`/`delete` naming an id with no row fails with
`NotFoundError` and leaves the store unchanged; moreover after a
successful `delete` the id resolves to no row, so deleting it again
fails with `NotFoundError` rather than silently succeeding. -/
theorem notFound_errors (s : TodoStore) (id : Nat) (d text : String)
    (hd : d ≠ "") (ht : (jsTrim text) ≠ "") (hid : s.get id = none) :
    (toggleTodo s id d = (.error .notFound, s) ∧
     updateTodo s id text d = (.error .notFound, s) ∧
     deleteTodo s id d = (.error .notFound, s)) ∧
    (∀ (i : Nat) (t : Todo), s.get i = some t → t.deviceId = d →
      (deleteTodo s i d).2.get i = none ∧
      deleteTodo (deleteTodo s i d).2 i d =
        (.error .notFound, (deleteTodo s i d).2)) := by
  refine ⟨⟨by simp [toggleTodo, hd, hid], by simp [updateTodo, hd, ht, hid],
      by simp [deleteTodo, hd, hid]⟩, ?_⟩
  intro i t hget hown
  have heq : deleteTodo s i d =
      (.ok i, { s with todos := s.todos.filter (fun t => !(t.id == i)) }) := by
    simp [deleteTodo, hd, hget, hown]
  have hnone : ({ s with todos := s.todos.filter (fun t => !(t.id == i)) }
      : TodoStore).get i = none := by
    simp only [TodoStore.get]
    refine List.find?_eq_none.mpr ?_
    intro x hx
    have := (List.mem_filter.mp hx).2
    simp_all
  refine ⟨by rw [heq]; exact hnone, ?_⟩
  rw [heq]
  simp [deleteTodo, hd, hnone]

/-- C7 — `clearAll` contract: for a non-empty `deviceId`,
`clearAllTodos` removes exactly the device's rows (every row of another
device survives), returns `deletedCount` equal to the number removed
(`0` is an ordinary success), and afterwards `getTodos` for that device
is empty and a second `clearAllTodos` returns `deletedCount = 0` leaving
the store as is. -/
theorem clearAllTodos_contract (s : TodoStore) (d : String) (hd : d ≠ "") :
    ∃ s' : TodoStore,
      clearAllTodos s d
        = (.ok (s.todos.filter (fun t => t.deviceId == d)).length, s') ∧
      s'.todos = s.todos.filter (fun t => !(t.deviceId == d)) ∧
      (∀ t ∈ s.todos, t.deviceId ≠ d → t ∈ s'.todos) ∧
      (∀ t ∈ s'.todos, t ∈ s.todos ∧ t.deviceId ≠ d) ∧
      getTodos s' (some d) = [] ∧
      clearAllTodos s' d = (.ok 0, s') := by
  refine ⟨{ s with todos := s.todos.filter (fun t => !(t.deviceId == d)) },
    by simp [clearAllTodos, hd], rfl, ?_, ?_, ?_, ?_⟩
  · intro t htl hne
    exact List.mem_filter.mpr ⟨htl, by simpa using hne⟩
  · intro t htl
    have h := List.mem_filter.mp htl
    exact ⟨h.1, by simpa using h.2⟩
  · have hnil : (s.todos.filter (fun t => !(t.deviceId == d))).filter
        (fun t => t.deviceId == d) = [] := by
      rw [List.filter_filter]
      refine List.filter_eq_nil_iff.mpr ?_
      intro a _
      cases h : a.deviceId == d <;> simp [h]
    simp [getTodos, hd, hnil]
  · have hself : (s.todos.filter (fun t => !(t.deviceId == d))).filter
        (fun t => !(t.deviceId == d)) = s.todos.filter (fun t => !(t.deviceId == d)) := by
      refine List.filter_eq_self.mpr ?_
      intro a ha
      exact (List.mem_filter.mp ha).2
    have hnil : (s.todos.filter (fun t => !(t.deviceId == d))).filter
        (fun t => t.deviceId == d) = [] := by
      rw [List.filter_filter]
      refine List.filter_eq_nil_iff.mpr ?_
      intro a _
      cases h : a.deviceId == d <;> simp [h]
    simp [clearAllTodos, hd, hnil, hself]

/-- C1 — device isolation: for devices `A ≠ B` (device identifiers
are non-empty, §4.1), a row owned by `A` never appears in `getTodos` for
`B` (for any `B`, empty included), and a `toggle`/`update`/`delete`
presenting `B`'s id against a row owned by `A` fails with
`AuthorizationError`, leaving the store — hence that row — unchanged. -/
theorem device_isolation (s : TodoStore) (A B : String) (hAB : A ≠ B) :
    (∀ t ∈ s.todos, t.deviceId = A → t ∉ getTodos s (some B)) ∧
    (∀ (id : Nat) (t : Todo) (text : String), B ≠ "" → (jsTrim text) ≠ "" →
      s.get id = some t → t.deviceId = A →
      toggleTodo s id B = (.error .authorization, s) ∧
      updateTodo s id text B = (.error .authorization, s) ∧
      deleteTodo s id B = (.error .authorization, s)) := by
  constructor
  · intro t _ htA hmem
    by_cases hB : B = ""
    · simp [getTodos, hB] at hmem
    · rw [show getTodos s (some B)
          = List.insertionSort createdDesc (s.todos.filter (fun t => t.deviceId == B))
          from by simp [getTodos, hB], List.mem_insertionSort, List.mem_filter] at hmem
      exact hAB (htA.symm.trans (by simpa using hmem.2))
  · intro id t text hB htext hget htA
    have hne : t.deviceId ≠ B := htA ▸ hAB
    exact ⟨by simp [toggleTodo, hB, hget, hne],
      by simp [updateTodo, hB, htext, hget, hne],
      by simp [deleteTodo, hB, hget, hne]⟩

/-- C4 — toggle success and involution: on a well-formed store, a
`toggle` by the owning device succeeds, flips exactly the target row's
`isCompleted` flag (every other row untouched), and returns the new
status of the updated record; toggling again returns the original
status and restores the store — in particular `isCompleted` and `text`
— exactly. -/
theorem toggleTodo_involution (s : TodoStore) (id : Nat) (d : String) (t : Todo)
    (hWF : s.WF) (hd : d ≠ "") (hget : s.get id = some t) (hown : t.deviceId = d) :
    ∃ s' : TodoStore,
      toggleTodo s id d = (.ok (!t.isCompleted), s') ∧
      s'.get id = some { t with isCompleted := !t.isCompleted } ∧
      (∀ u ∈ s.todos, u.id ≠ id → u ∈ s'.todos) ∧
      toggleTodo s' id d = (.ok t.isCompleted, s) := by
  have heq : toggleTodo s id d =
      (.ok (!t.isCompleted),
        { s with todos := s.todos.map (fun x =>
            if x.id == id then { x with isCompleted := !t.isCompleted } else x) }) := by
    simp [toggleTodo, hd, hget, hown]
  have hget' : ({ s with todos := s.todos.map (fun x =>
      if x.id == id then { x with isCompleted := !t.isCompleted } else x) }
        : TodoStore).get id = some { t with isCompleted := !t.isCompleted } := by
    simp only [TodoStore.get] at hget ⊢
    rw [find?_map_patch s.todos id
      (fun x : Todo => { x with isCompleted := !t.isCompleted }) (fun _ => rfl), hget]
    rfl
  refine ⟨_, heq, hget', ?_, ?_⟩
  · intro u hu hune
    refine List.mem_map.mpr ⟨u, hu, ?_⟩
    simp [hune]
  · simp only [TodoStore.get] at hget
    have hcancel := map_patch_cancel hWF.2 hget
      (fun x : Todo => { x with isCompleted := !t.isCompleted })
      (fun x : Todo => { x with isCompleted := !(!t.isCompleted) })
      (by simp) (fun _ => rfl)
    simp only [Bool.not_not] at hcancel
    simp at hget' hcancel
    simp [toggleTodo, hd, hown, Bool.not_not, hget', hcancel]

/-- C6 — update frame condition: on a well-formed store, a
successful `update` (row exists, owned by the caller, trimmed text
non-blank) returns the trimmed text, rewrites the target row's `text` to
it leaving that row's `isCompleted` and `deviceId` intact, and every
other row is carried over unchanged (membership both ways, same row
count). -/
theorem updateTodo_frame (s : TodoStore) (id : Nat) (text d : String) (t : Todo)
    (ht : (jsTrim text) ≠ "") (hd : d ≠ "") (hget : s.get id = some t)
    (hown : t.deviceId = d) :
    ∃ s' : TodoStore,
      updateTodo s id text d = (.ok (jsTrim text), s') ∧
      s'.get id = some { t with text := (jsTrim text) } ∧
      (∀ u ∈ s.todos, u.id ≠ id → u ∈ s'.todos) ∧
      (∀ u ∈ s'.todos, u.id ≠ id → u ∈ s.todos) ∧
      s'.todos.length = s.todos.length := by
  have heq : updateTodo s id text d =
      (.ok (jsTrim text),
        { s with todos := s.todos.map (fun x =>
            if x.id == id then { x with text := (jsTrim text) } else x) }) := by
    simp [updateTodo, ht, hd, hget, hown]
  have hget' : ({ s with todos := s.todos.map (fun x =>
      if x.id == id then { x with text := (jsTrim text) } else x) }
        : TodoStore).get id = some { t with text := (jsTrim text) } := by
    simp only [TodoStore.get] at hget ⊢
    rw [find?_map_patch s.todos id
      (fun x : Todo => { x with text := (jsTrim text) }) (fun _ => rfl), hget]
    rfl
  refine ⟨_, heq, hget', ?_, ?_, by simp⟩
  · intro u hu hune
    refine List.mem_map.mpr ⟨u, hu, ?_⟩
    simp [hune]
  · intro u hu hune
    obtain ⟨x, hx, hxu⟩ := List.mem_map.mp hu
    by_cases hxid : x.id = id
    · exfalso
      apply hune
      rw [← hxu]
      simp [hxid]
    · rwa [← hxu, if_neg (by simpa using hxid)]

/-- Every identifier the generator builds starts with `device_`, so it is
never the empty string. -/
theorem deviceTag_ne_empty (x : String) : "device_" ++ x ≠ "" := by
  intro h
  have hlen := congrArg String.length h
  rw [String.length_append] at hlen
  have h7 : "device_".length = 7 := rfl
  have h0 : ("" : String).length = 0 := rfl
  omega

/-- When the fallback path returns a value, that value is non-empty and
is what it just persisted. -/
theorem fallbackGen_ok {e : DeviceEnv} {id : String} {st : Option String}
    (h : fallbackGen e = .ok (id, st)) : st = some id ∧ id ≠ "" := by
  unfold fallbackGen at h
  by_cases hf : e.fallbackWriteFails
  · rw [if_pos hf] at h
    exact absurd h (by simp)
  · rw [if_neg hf] at h
    simp only [Except.ok.injEq, Prod.mk.injEq] at h
    obtain ⟨rfl, rfl⟩ := h
    exact ⟨rfl, deviceTag_ne_empty _⟩

/-- When the generation path returns a value, that value is non-empty
and is what it just persisted. -/
theorem genNewId_ok {e : DeviceEnv} {id : String} {st : Option String}
    (h : genNewId e = .ok (id, st)) : st = some id ∧ id ≠ "" := by
  unfold genNewId at h
  by_cases hh : e.hashFails
  · rw [if_pos hh] at h
    exact fallbackGen_ok h
  · rw [if_neg hh] at h
    by_cases hw : e.writeFails
    · rw [if_pos hw] at h
      exact fallbackGen_ok h
    · rw [if_neg hw] at h
      simp only [Except.ok.injEq, Prod.mk.injEq] at h
      obtain ⟨rfl, rfl⟩ := h
      exact ⟨rfl, deviceTag_ne_empty _⟩

/-- Whenever `generateOrRetrieveDeviceId` succeeds, the returned id is
non-empty and AsyncStorage ends up holding exactly it. -/
theorem generateOrRetrieveDeviceId_ok {e : DeviceEnv} {id : String}
    {st : Option String} (h : generateOrRetrieveDeviceId e = .ok (id, st)) :
    st = some id ∧ id ≠ "" := by
  unfold generateOrRetrieveDeviceId at h
  by_cases hr : e.readFails
  · rw [if_pos hr] at h
    exact fallbackGen_ok h
  · rw [if_neg hr] at h
    cases hst : e.stored with
    | none => rw [hst] at h; exact genNewId_ok h
    | some s =>
      rw [hst] at h
      simp only [] at h
      by_cases hs : s = ""
      · rw [if_pos hs] at h
        exact genNewId_ok h
      · rw [if_neg hs] at h
        simp only [Except.ok.injEq, Prod.mk.injEq] at h
        obtain ⟨rfl, rfl⟩ := h
        exact ⟨rfl, hs⟩

/-- C8 — identity idempotence: a call that finds a persisted (hence
non-empty) identifier returns it unchanged, with storage untouched; and
after any successful call, a second call that reads the resulting
storage (its read not failing) returns the very same identifier and
leaves storage as is — two calls with no intervening reset agree. -/
theorem deviceId_idempotent (e e1 e2 : DeviceEnv) (sid id : String)
    (st : Option String)
    (hs : sid ≠ "") (hr : e.readFails = false) (hst : e.stored = some sid)
    (h1 : generateOrRetrieveDeviceId e1 = .ok (id, st))
    (h2 : e2.stored = st) (h3 : e2.readFails = false) :
    generateOrRetrieveDeviceId e = .ok (sid, some sid) ∧
    generateOrRetrieveDeviceId e2 = .ok (id, st) := by
  constructor
  · simp [generateOrRetrieveDeviceId, hr, hst, hs]
  · obtain ⟨hsome, hne⟩ := generateOrRetrieveDeviceId_ok h1
    rw [hsome] at h2 ⊢
    simp [generateOrRetrieveDeviceId, h3, h2, hne]

/-- C9 — the availability claim fails on the code: with nothing
stored and a storage layer whose writes throw (both the `setItem` of the
`try` block and the one inside the `catch` block), the fallback path's
unguarded `await AsyncStorage.setItem` rethrows and
`generateOrRetrieveDeviceId`'s promise rejects — no identifier, empty or
not, is produced, although the spec guarantees the call always succeeds
with some non-empty string. -/
theorem generateOrRetrieveDeviceId_rejects : generateOrRetrieveDeviceId c9Env = .error () := rfl

/-- C10 — `getDeviceStats` consistency: for every (possibly absent)
`deviceId`, the returned counts satisfy `total = completed + pending`
with `completed ≤ total`; `completionRate` is `0` when `total = 0` (no
division happens) and otherwise is the round-half-up of
`100·completed/total` — the unique integer `q` with `2·total·q ≤
200·completed + total < 2·total·(q+1)` — so it always lies between 0
and 100. -/
theorem getDeviceStats_consistent (s : TodoStore) (d : Option String) :
    (getDeviceStats s d).completed ≤ (getDeviceStats s d).total ∧
    (getDeviceStats s d).total
      = (getDeviceStats s d).completed + (getDeviceStats s d).pending ∧
    ((getDeviceStats s d).total = 0 → (getDeviceStats s d).completionRate = 0) ∧
    (0 < (getDeviceStats s d).total →
      2 * (getDeviceStats s d).total * (getDeviceStats s d).completionRate
          ≤ 200 * (getDeviceStats s d).completed + (getDeviceStats s d).total ∧
      200 * (getDeviceStats s d).completed + (getDeviceStats s d).total
          < 2 * (getDeviceStats s d).total * ((getDeviceStats s d).completionRate + 1)) ∧
    (getDeviceStats s d).completionRate ≤ 100 := by
  set l : List Todo := (match d with
      | none => ([] : List Todo)
      | some dd => s.todos.filter (fun t => t.deviceId == dd)) with hl
  have hexp : getDeviceStats s d =
      { total := l.length,
        completed := (l.filter (fun t => t.isCompleted)).length,
        pending := l.length - (l.filter (fun t => t.isCompleted)).length,
        completionRate := if 0 < l.length
          then (200 * (l.filter (fun t => t.isCompleted)).length + l.length)
              / (2 * l.length)
          else 0 } := rfl
  rw [hexp]
  dsimp only
  set n := l.length with hn
  set c := (l.filter (fun t => t.isCompleted)).length with hc
  have hcn : c ≤ n := List.length_filter_le _ _
  refine ⟨hcn, by omega, fun h0 => by rw [if_neg (by omega)], fun hpos => ?_, ?_⟩
  · have h2n : 0 < 2 * n := by omega
    have hdm := Nat.div_add_mod (200 * c + n) (2 * n)
    have hmod := Nat.mod_lt (200 * c + n) h2n
    rw [if_pos hpos]
    constructor
    · calc 2 * n * ((200 * c + n) / (2 * n))
          ≤ 2 * n * ((200 * c + n) / (2 * n)) + (200 * c + n) % (2 * n) :=
            Nat.le_add_right _ _
        _ = 200 * c + n := hdm
    · calc 200 * c + n
          = 2 * n * ((200 * c + n) / (2 * n)) + (200 * c + n) % (2 * n) := hdm.symm
        _ < 2 * n * ((200 * c + n) / (2 * n)) + 2 * n := Nat.add_lt_add_left hmod _
        _ = 2 * n * ((200 * c + n) / (2 * n)) + 2 * n * 1 := by rw [Nat.mul_one]
        _ = 2 * n * ((200 * c + n) / (2 * n) + 1) := (Nat.mul_add _ _ _).symm
  · by_cases hpos : 0 < n
    · rw [if_pos hpos]
      calc (200 * c + n) / (2 * n) ≤ (201 * n) / (2 * n) :=
            Nat.div_le_div_right (by omega)
        _ = 100 := Nat.div_eq_of_lt_le (by omega) (by omega)
    · rw [if_neg hpos]
      omega


/-! Concrete witnesses: each instantiates its claim's theorem on the
fixtures, discharging every hypothesis by evaluation. -/

/-- C1 witness: `D2` never sees `D1`'s `todoA`, and `toggle`/`update`/
`delete` with `D2`'s identifier against it fail with
`AuthorizationError`, the store untouched. -/
theorem device_isolation_witness :
    todoA ∉ getTodos demoStore (some "D2") ∧
    toggleTodo demoStore 0 "D2" = (.error .authorization, demoStore) ∧
    updateTodo demoStore 0 "x" "D2" = (.error .authorization, demoStore) ∧
    deleteTodo demoStore 0 "D2" = (.error .authorization, demoStore) := by
  have h := device_isolation demoStore "D1" "D2" (by decide)
  have h2 := h.2 0 todoA "x" (by decide) (by decide) (by decide) (by decide)
  exact ⟨h.1 todoA (by decide) (by decide), h2.1, h2.2.1, h2.2.2⟩

/-- C2 witness: adding "  buy milk  " for `D1` stores the trimmed
incomplete todo under the fresh id 3 and returns that id; blank text is
rejected with `ValidationError` leaving the store unchanged. -/
theorem addTodo_contract_witness :
    demoStore.WF ∧
    addTodo demoStore "  buy milk  " "D1" = (.ok 3, addedStore) ∧
    addedStore.get 3 = some addedTodo ∧
    addTodo demoStore "   " "D1" = (.error .validation, demoStore) := by
  have h := addTodo_contract demoStore "  buy milk  " "D1" (by decide)
  have h2 := h.2 (by decide) (by decide)
  have hv := (addTodo_contract demoStore "   " "D1" (by decide)).1 (Or.inl (by decide))
  exact ⟨by decide, h2.1, h2.2.2, hv⟩

/-- C3 witness: the spec scenario — `D1`'s list is `["b", "a"]`, newest
first and sorted by creation time descending; the empty device id gets
`[]`. -/
theorem getTodos_contract_witness :
    getTodos demoStore (some "D1") = [todoB, todoA] ∧
    (getTodos demoStore (some "D1")).Sorted createdDesc ∧
    getTodos demoStore (some "") = [] := by
  have h := getTodos_contract demoStore "D1" (by decide)
  exact ⟨by decide, h.2.1, h.2.2.2.2.2⟩

/-- C4 witness: toggling `todoA` by `D1` completes it and returns the
new status `true`; toggling again returns `false` and restores the
store exactly. -/
theorem toggleTodo_involution_witness :
    demoStore.WF ∧
    toggleTodo demoStore 0 "D1" = (.ok true, toggledStore) ∧
    toggleTodo toggledStore 0 "D1" = (.ok false, demoStore) := by
  obtain ⟨s', h1, _h2, _h3, h4⟩ :=
    toggleTodo_involution demoStore 0 "D1" todoA (by decide) (by decide)
      (by decide) (by decide)
  have he : toggleTodo demoStore 0 "D1" = (.ok true, toggledStore) := rfl
  have hs : s' = toggledStore := congrArg Prod.snd (h1.symm.trans he)
  refine ⟨by decide, he, ?_⟩
  rw [← hs]
  exact h4

/-- C5 witness: id 7 names no row, so `toggle`/`update`/`delete` fail
with `NotFoundError` leaving the store unchanged; deleting `todoC`
twice fails with `NotFoundError` the second time. -/
theorem notFound_errors_witness :
    demoStore.get 7 = none ∧
    toggleTodo demoStore 7 "D2" = (.error .notFound, demoStore) ∧
    updateTodo demoStore 7 "x" "D2" = (.error .notFound, demoStore) ∧
    deleteTodo demoStore 7 "D2" = (.error .notFound, demoStore) ∧
    deleteTodo (deleteTodo demoStore 2 "D2").2 2 "D2" =
      (.error .notFound, (deleteTodo demoStore 2 "D2").2) := by
  have h := notFound_errors demoStore 7 "D2" "x" (by decide) (by decide) (by decide)
  exact ⟨by decide, h.1.1, h.1.2.1, h.1.2.2, (h.2 2 todoC (by decide) (by decide)).2⟩

/-- C6 witness: updating `todoB` to " b2 " stores the trimmed "b2",
keeps its completion flag and owner, and carries `todoA` and `todoC`
over unchanged. -/
theorem updateTodo_frame_witness :
    updateTodo demoStore 1 " b2 " "D1" = (.ok "b2", updatedStore) ∧
    updatedStore.get 1 = some { todoB with text := "b2" } ∧
    todoA ∈ updatedStore.todos ∧ todoC ∈ updatedStore.todos := by
  obtain ⟨s', h1, h2, h3, _h4, _h5⟩ :=
    updateTodo_frame demoStore 1 " b2 " "D1" todoB (by decide) (by decide)
      (by decide) (by decide)
  have he : updateTodo demoStore 1 " b2 " "D1" = (.ok "b2", updatedStore) := rfl
  have hs : s' = updatedStore := congrArg Prod.snd (h1.symm.trans he)
  refine ⟨he, ?_, hs ▸ h3 todoA (by decide) (by decide),
    hs ▸ h3 todoC (by decide) (by decide)⟩
  rw [← hs]
  exact h2

/-- C7 witness: clearing `D1` removes its two todos and reports the
count; `D2`'s todo survives, `D1`'s list is then empty and a second
clear reports zero. -/
theorem clearAllTodos_contract_witness :
    clearAllTodos demoStore "D1" = (.ok 2, clearedStore) ∧
    getTodos clearedStore (some "D1") = [] ∧
    clearAllTodos clearedStore "D1" = (.ok 0, clearedStore) := by
  obtain ⟨s', h1, _h2, _h3, _h4, h5, h6⟩ := clearAllTodos_contract demoStore "D1" (by decide)
  have he : clearAllTodos demoStore "D1" = (.ok 2, clearedStore) := rfl
  have hs : s' = clearedStore := congrArg Prod.snd (h1.symm.trans he)
  exact ⟨he, hs ▸ h5, hs ▸ h6⟩

/-- C8 witness: with `device_stored00` persisted, the call returns it
unchanged; a fresh environment generates and persists the hash-derived
id, and a second call reading that storage returns the same id. -/
theorem deviceId_idempotent_witness :
    generateOrRetrieveDeviceId demoEnv
      = .ok ("device_stored00", some "device_stored00") ∧
    generateOrRetrieveDeviceId freshEnv
      = .ok ("device_0123456789abcdef0123456789abcdef",
          some "device_0123456789abcdef0123456789abcdef") ∧
    generateOrRetrieveDeviceId
        { freshEnv with stored := some "device_0123456789abcdef0123456789abcdef" }
      = .ok ("device_0123456789abcdef0123456789abcdef",
          some "device_0123456789abcdef0123456789abcdef") := by
  have h := deviceId_idempotent demoEnv freshEnv
    { freshEnv with stored := some "device_0123456789abcdef0123456789abcdef" }
    "device_stored00" "device_0123456789abcdef0123456789abcdef"
    (some "device_0123456789abcdef0123456789abcdef")
    (by decide) (by decide) (by decide) rfl (by decide) (by decide)
  exact ⟨h.1, rfl, h.2⟩

/-- C10 witness: `D2` owns one completed todo, so the stats are
`total 1, completed 1, pending 0, completionRate 100`, consistent and
within bounds. -/
theorem getDeviceStats_consistent_witness :
    getDeviceStats demoStore (some "D2")
      = { total := 1, completed := 1, pending := 0, completionRate := 100 } ∧
    (getDeviceStats demoStore (some "D2")).total
      = (getDeviceStats demoStore (some "D2")).completed
          + (getDeviceStats demoStore (some "D2")).pending ∧
    (getDeviceStats demoStore (some "D2")).completionRate ≤ 100 := by
  have h := getDeviceStats_consistent demoStore (some "D2")
  exact ⟨by decide, h.2.1, h.2.2.2.2⟩
